import Mathlib

/-!
Verification development for the ai-info feed aggregator backend.

The Python services are shallowly embedded: pure helpers become Lean
functions over `List Char` / `String`, database state becomes explicit
record passing, the LLM provider becomes an oracle function whose
invocations are counted, and exceptions become `Except` results.
Machine-level details (floats such as `temperature`, wall-clock time,
the HTTP client itself) are abstracted: timestamps are explicit
parameters and HTTP responses are explicit data.
-/

namespace AiInfo

set_option maxRecDepth 10000

/-! ### Python string primitives (app/utils/text.py and str methods) -/

/-- Characters treated as whitespace by Python's `str.strip` and the regex
class for whitespace (ASCII subset; exotic Unicode whitespace is not
modelled). -/
def pyIsSpace (c : Char) : Bool :=
  c == ' ' || c == '\t' || c == '\n' || c == '\r' || c == '\x0b' || c == '\x0c'

/-- Python `str.strip()` on a character list. -/
def pyStrip (s : List Char) : List Char :=
  ((s.dropWhile pyIsSpace).reverse.dropWhile pyIsSpace).reverse

/-- Python `str.strip()` on a `String`. -/
def pyStripS (s : String) : String := ⟨pyStrip s.data⟩

/-- Python `str.splitlines()` (restricted to `\n`, `\r\n` and `\r`
separators): splits into lines, dropping a final empty segment produced
by a trailing line break. -/
def splitLinesAux : List Char → List Char → List (List Char)
  | [], cur => if cur.isEmpty then [] else [cur.reverse]
  | '\r' :: '\n' :: rest, cur => cur.reverse :: splitLinesAux rest []
  | '\n' :: rest, cur => cur.reverse :: splitLinesAux rest []
  | '\r' :: rest, cur => cur.reverse :: splitLinesAux rest []
  | c :: rest, cur => splitLinesAux rest (c :: cur)

/-- Python `str.splitlines()`. -/
def splitLines (s : List Char) : List (List Char) := splitLinesAux s []

/-- Python `sep.join(parts)`. -/
def joinWith (sep : List Char) : List (List Char) → List Char
  | [] => []
  | [x] => x
  | x :: xs => x ++ sep ++ joinWith sep xs

/-- Python `sep.join(parts)` on `String`s. -/
def joinWithS (sep : String) : List String → String
  | [] => ""
  | [x] => x
  | x :: xs => x ++ sep ++ joinWithS sep xs

/-- Index of the first `>` in the list, if any (helper for the HTML tag
stripper). -/
def tagEnd (s : List Char) : Option Nat := s.findIdx? (· == '>')

/-- Worker for the tag-stripping pass, structurally recursive on a fuel
argument so that it reduces inside the kernel; every step consumes at
least one character, so fuel equal to the input length never runs out. -/
def htmlAux : Nat → List Char → List Char
  | 0, s => s
  | _, [] => []
  | fuel + 1, c :: rest =>
    if c == '<' then
      match tagEnd rest with
      | some 0 => c :: htmlAux fuel rest
      | some (j + 1) => htmlAux fuel (rest.drop (j + 2))
      | none => c :: htmlAux fuel rest
    else c :: htmlAux fuel rest

/-- The tag-stripping pass of `html_to_text` in app/utils/text.py:
`re.sub(r"<[^>]+>", "", html)`.  A `<` followed (possibly after other
characters, none of them `>`) by a `>` is removed together with the
enclosed characters; a `<` immediately followed by `>` or with no later
`>` is kept, exactly as the regex (which requires at least one non-`>`
character inside the tag) behaves. -/
def html_to_text (s : List Char) : List Char := htmlAux s.length s

/-- `html_to_text` on `String`s. -/
def htmlToTextS (s : String) : String := ⟨html_to_text s.data⟩

/-- The `truncate_text` helper in app/utils/text.py: keep at most
`maxLength` characters. -/
def truncate_text (s : List Char) (maxLength : Nat) : List Char :=
  if s.length > maxLength then s.take maxLength else s

/-- `truncate_text` on `String`s. -/
def truncateTextS (s : String) (maxLength : Nat) : String :=
  ⟨truncate_text s.data maxLength⟩

/-! ### LLM response parsing (app/services/summary_service.py) -/

/-- Membership in the regex character class of bullet markers. -/
def isBulletChar (c : Char) : Bool := c == '-' || c == '*' || c == '•'

/-- Matcher for the compiled pattern in `_parse_llm_summary`:
the regex with two alternatives, a bullet character or a digit run
followed by a dot or closing parenthesis, each preceded by optional
whitespace and followed by at least one whitespace character.  Returns
the remainder of the line after the (greedy) match, or `none` when the
line does not match. -/
def matchBullet (line : List Char) : Option (List Char) :=
  match line.dropWhile pyIsSpace with
  | [] => none
  | c :: cs =>
    if isBulletChar c then
      match cs with
      | d :: _ => if pyIsSpace d then some (cs.dropWhile pyIsSpace) else none
      | [] => none
    else if c.isDigit then
      match cs.dropWhile Char.isDigit with
      | p :: ps =>
        if p == '.' || p == ')' then
          match ps with
          | q :: _ => if pyIsSpace q then some (ps.dropWhile pyIsSpace) else none
          | [] => none
        else none
      | [] => none
    else none

/-- A line counts as a bullet line when the pattern matches. -/
def isBulletLine (line : List Char) : Bool := (matchBullet line).isSome

/-- The `bullet_pattern.sub("", line).strip()` step: remove the matched
marker prefix and strip the remainder. -/
def stripBullet (line : List Char) : List Char :=
  pyStrip ((matchBullet line).getD line)

/-- Loop state of `_parse_llm_summary`: accumulated summary lines,
accumulated key points, and whether a bullet line has been seen. -/
structure ParseState where
  summaryLines : List (List Char)
  keyPoints : List (List Char)
  inBullets : Bool
deriving Repr, DecidableEq

/-- One iteration of the `for line in lines` loop of `_parse_llm_summary`:
blank lines are skipped; a bullet line switches to bullet mode and its
marker-stripped remainder is recorded when non-empty; a non-bullet line
is appended to the summary only before the first bullet line. -/
def parseLine (st : ParseState) (line : List Char) : ParseState :=
  if pyStrip line == [] then st
  else
    match matchBullet line with
    | some rem =>
      let point := pyStrip rem
      { st with
        inBullets := true
        keyPoints := if point == [] then st.keyPoints else st.keyPoints ++ [point] }
    | none =>
      if st.inBullets then st
      else { st with summaryLines := st.summaryLines ++ [pyStrip line] }

/-- The `_parse_llm_summary` function in app/services/summary_service.py:
split the raw response into a prose summary and a list of key points,
falling back to the whole stripped response when both come out empty. -/
def parse_llm_summary (raw : List Char) : List Char × List (List Char) :=
  let lines := splitLines (pyStrip raw)
  let st := lines.foldl parseLine ⟨[], [], false⟩
  let summaryText := pyStrip (joinWith [' '] st.summaryLines)
  if summaryText == [] && st.keyPoints == [] then (pyStrip raw, st.keyPoints)
  else (summaryText, st.keyPoints)

/-- `_parse_llm_summary` on `String`s. -/
def parseLlmSummaryS (raw : String) : String × List String :=
  let r := parse_llm_summary raw.data
  (⟨r.1⟩, r.2.map fun p => ⟨p⟩)

/-! ### Feed entry helpers (app/services/feed_service.py) -/

/-- A parsed feed entry as produced by feedparser, restricted to the
attributes the service reads.  `none` models an absent attribute; the
`content` attribute is the list of the content blocks' `value` strings
(an absent attribute and an empty list are both falsy in the source). -/
structure FeedEntry where
  entryId : Option String
  link : Option String
  title : Option String
  author : Option String
  content : List String
  summary : Option String
  publishedAt : Option Int
deriving Repr, DecidableEq

/-- Python truthiness of an optional string: present and non-empty. -/
def truthy : Option String → Bool
  | some s => s ≠ ""
  | none => false

/-- The `_entry_guid` helper: entry id when present and non-empty, else
entry link when present and non-empty, else the `"{feedURL}#{title}"`
fallback with an absent title read as the empty string. -/
def entry_guid (e : FeedEntry) (feedUrl : String) : String :=
  if truthy e.entryId then e.entryId.getD ""
  else if truthy e.link then e.link.getD ""
  else feedUrl ++ "#" ++ e.title.getD ""

/-- The `_extract_entry_content` helper: first content block, else
summary, else title, each under Python truthiness; the result is
HTML-stripped and truncated to 8000 characters. -/
def extract_entry_content (e : FeedEntry) : String :=
  let raw :=
    match e.content with
    | v :: _ => v
    | [] =>
      if truthy e.summary then e.summary.getD ""
      else if truthy e.title then e.title.getD ""
      else ""
  truncateTextS (htmlToTextS raw) 8000

/-! ### Feed fetch and ingest pipeline (app/services/feed_service.py) -/

/-- The mutable columns of an `RSSFeed` row that `fetch_feed` touches. -/
structure Feed where
  feedId : Nat
  url : String
  title : String
  description : Option String
  siteUrl : Option String
  etag : Option String
  lastModified : Option String
  lastFetchedAt : Option Int
deriving Repr, DecidableEq

/-- An `Article` row as created by the ingest loop (the surrogate primary
key is irrelevant to ingestion and is not modelled; the `(feed_id, guid)`
unique constraint is what the loop checks against). -/
structure ArticleRow where
  feedId : Nat
  guid : String
  title : String
  url : String
  author : Option String
  content : String
  publishedAt : Option Int
deriving Repr, DecidableEq

/-- Feed-level metadata from a feedparser result. -/
structure ParsedFeedMeta where
  title : Option String
  description : Option String
  subtitle : Option String
  link : Option String
deriving Repr, DecidableEq

/-- An HTTP response to the conditional GET, with the body already run
through feedparser (the network and the parser are collaborators; their
output is data to this service). -/
structure HttpResp where
  status : Nat
  etagHeader : Option String
  lastModifiedHeader : Option String
  meta : ParsedFeedMeta
  entries : List FeedEntry
deriving Repr, DecidableEq

/-- A network-level failure of the HTTP client (`httpx.HTTPError`). -/
structure NetErr where
  msg : String
deriving Repr, DecidableEq

/-- Errors `fetch_feed` can raise. -/
inductive FetchErr where
  | network (e : NetErr)
deriving Repr, DecidableEq

/-- The summary dict returned by `fetch_feed`. -/
structure FetchSummary where
  feedId : Nat
  newArticles : Nat
  status : String
deriving Repr, DecidableEq

deriving instance DecidableEq for Except

/-- Result of one `fetch_feed` invocation: the persisted feed row, the
persisted articles table, and the returned summary or raised error. -/
structure FetchResult where
  feed : Feed
  articles : List ArticleRow
  outcome : Except FetchErr FetchSummary
deriving Repr, DecidableEq

/-- The article the ingest loop builds from one parsed entry: GUID by
priority, stripped title with a placeholder fallback, link falling back
to the feed URL, stripped author or `none`, extracted content, resolved
publication timestamp. -/
def build_article (feed : Feed) (e : FeedEntry) : ArticleRow :=
  { feedId := feed.feedId
    guid := entry_guid e feed.url
    title := let t := pyStripS (e.title.getD ""); if t ≠ "" then t else "(no title)"
    url := pyStripS (if truthy e.link then e.link.getD "" else feed.url)
    author := let a := pyStripS (e.author.getD ""); if a ≠ "" then some a else none
    content := extract_entry_content e
    publishedAt := e.publishedAt }

/-- Whether the articles table already holds a row for `(feedId, guid)` —
the condition under which the INSERT hits the unique constraint. -/
def has_article (arts : List ArticleRow) (fid : Nat) (g : String) : Bool :=
  arts.any fun a => a.feedId == fid && a.guid == g

/-- The per-entry insert loop of `fetch_feed`: each entry is inserted in
its own savepoint, so an `IntegrityError` from the `(feed_id, guid)`
unique constraint rolls back only that insert and the loop continues;
successful inserts are counted. -/
def insert_entries (feed : Feed) (arts : List ArticleRow) :
    List FeedEntry → List ArticleRow × Nat
  | [] => (arts, 0)
  | e :: rest =>
    if has_article arts (build_article feed e).feedId (build_article feed e).guid then
      insert_entries feed arts rest
    else
      ((insert_entries feed (arts ++ [build_article feed e]) rest).1,
       (insert_entries feed (arts ++ [build_article feed e]) rest).2 + 1)

/-- The feed-row updates of the 200 branch of `fetch_feed`: store fresh
conditional-GET tokens when the headers carry non-empty values, backfill
the title only when the stored one is empty, and refresh description and
site URL whenever the parse provides them.  The source applies these as
successive attribute writes on independent fields; they are modelled as
one simultaneous record update. -/
def apply_meta (f : Feed) (r : HttpResp) : Feed :=
  { f with
    etag := if truthy r.etagHeader then r.etagHeader else f.etag
    lastModified :=
      if truthy r.lastModifiedHeader then r.lastModifiedHeader else f.lastModified
    title :=
      if truthy r.meta.title && (f.title == "") then r.meta.title.getD "" else f.title
    description :=
      if truthy r.meta.description then r.meta.description
      else if truthy r.meta.subtitle then r.meta.subtitle
      else f.description
    siteUrl := if truthy r.meta.link then r.meta.link else f.siteUrl }

/-- The `fetch_feed` state machine (the feed row is assumed found; the
lookup failure path is routing glue).  A network-level error is raised
before any state is touched; otherwise the fetch timestamp is recorded,
a 304 and a non-200 commit only that timestamp, and a 200 additionally
stores new conditional tokens, backfills metadata, and runs the
per-entry ingest loop, all committed as one outer transaction. -/
def fetch_feed (feed : Feed) (arts : List ArticleRow)
    (httpResult : Except NetErr HttpResp) (now : Int) : FetchResult :=
  match httpResult with
  | .error e => ⟨feed, arts, .error (.network e)⟩
  | .ok resp =>
    if resp.status == 304 then
      ⟨{ feed with lastFetchedAt := some now }, arts,
        .ok ⟨feed.feedId, 0, "not_modified"⟩⟩
    else if resp.status != 200 then
      ⟨{ feed with lastFetchedAt := some now }, arts,
        .ok ⟨feed.feedId, 0, "http_" ++ toString resp.status⟩⟩
    else
      ⟨apply_meta { feed with lastFetchedAt := some now } resp,
       (insert_entries (apply_meta { feed with lastFetchedAt := some now } resp)
         arts resp.entries).1,
       .ok ⟨feed.feedId,
         (insert_entries (apply_meta { feed with lastFetchedAt := some now } resp)
           arts resp.entries).2, "ok"⟩⟩

/-! ### UTC datetimes (datetime values exchanged between the services) -/

/-- A timezone-aware UTC datetime, to second precision (microseconds play
no role in any claim). -/
structure DT where
  year : Int
  month : Nat
  day : Nat
  hour : Nat := 0
  minute : Nat := 0
  second : Nat := 0
deriving Repr, DecidableEq

/-- Python datetime comparison: field-lexicographic. -/
def dtLt (a b : DT) : Bool :=
  if a.year < b.year then true
  else if b.year < a.year then false
  else if a.month < b.month then true
  else if b.month < a.month then false
  else if a.day < b.day then true
  else if b.day < a.day then false
  else if a.hour < b.hour then true
  else if b.hour < a.hour then false
  else if a.minute < b.minute then true
  else if b.minute < a.minute then false
  else a.second < b.second

/-- Python datetime `<=`. -/
def dtLe (a b : DT) : Bool := dtLt a b || a == b

/-- Zero-pad a natural number to two digits (strftime `%m` / `%d`). -/
def pad2 (n : Nat) : String := if n < 10 then "0" ++ toString n else toString n

/-- Zero-pad a year to four digits (strftime `%Y`; negative years are not
reachable from the data the services handle). -/
def pad4 (y : Int) : String :=
  let n := y.toNat
  if n < 10 then "000" ++ toString n
  else if n < 100 then "00" ++ toString n
  else if n < 1000 then "0" ++ toString n
  else toString n

/-- `strftime("%Y-%m-%d")`. -/
def format_date (d : DT) : String :=
  pad4 d.year ++ "-" ++ pad2 d.month ++ "-" ++ pad2 d.day

/-! ### Summarization and digest services
(app/services/summary_service.py, app/services/digest_service.py) -/

/-- An `LLMProviderConfig` row, restricted to the columns these services
read (the float `temperature` and the credentials never influence any
claim; `scalar_one_or_none` uniqueness is modelled by taking the first
match). -/
structure ConfigRow where
  configId : Nat
  providerType : String
  modelName : String
  isDefault : Bool
deriving Repr, DecidableEq

/-- An `Article` row as the summarization and digest services see it. -/
structure ArticleRec where
  articleId : Nat
  title : String
  content : String
  publishedAt : Option DT
deriving Repr, DecidableEq

/-- A `Summary` row. -/
structure SummaryRow where
  summaryId : Nat
  articleId : Nat
  llmProvider : String
  llmModel : String
  summaryText : String
  keyPoints : Option (List String)
  tokenUsage : Option Nat
deriving Repr, DecidableEq

/-- A `DigestReport` row. -/
structure DigestRow where
  digestId : Nat
  periodType : String
  periodStart : DT
  periodEnd : DT
  content : String
  articleCount : Nat
  llmProvider : String
  llmModel : String
deriving Repr, DecidableEq

/-- Database state visible to the summarization and digest services,
instrumented with a counter of provider invocations so that "no LLM
call" is a provable statement. -/
structure SummDB where
  articles : List ArticleRec
  summaries : List SummaryRow
  configs : List ConfigRow
  digests : List DigestRow
  nextSummaryId : Nat := 1
  nextDigestId : Nat := 1
  providerCalls : Nat := 0
deriving Repr, DecidableEq

/-- A provider response (`LLMResponse` in app/llm/base.py). -/
structure LLMResp where
  content : String
  promptTokens : Nat := 0
  completionTokens : Nat := 0
  totalTokens : Nat := 0
deriving Repr, DecidableEq

/-- The provider as an oracle: the single user prompt both services send
is mapped to a response.  Every use is counted in `providerCalls`. -/
def Chat : Type := String → LLMResp

/-- Config resolution shared by `get_llm_provider` and
`_load_provider_meta`: an explicit id wins, otherwise the config marked
as default; `none` models the raised `ValueError`. -/
def resolve_config (db : SummDB) (llmConfigId : Option Nat) : Option ConfigRow :=
  match llmConfigId with
  | some i => db.configs.find? fun c => c.configId == i
  | none => db.configs.find? fun c => c.isDefault

/-- `ARTICLE_SUMMARY_PROMPT.format(title=…, content=…)` from
app/llm/prompts.py. -/
def article_summary_prompt (title content : String) : String :=
  "Summarize the following article in Chinese. Provide:\n" ++
  "1) A concise summary (2-3 sentences)\n" ++
  "2) 3-5 key points as bullet points\n\n" ++
  "Article title: " ++ title ++ "\n\n" ++
  "Article content:\n" ++ content

/-- Errors raised by `summarize_article` (both are `ValueError` in the
source; the embedding keeps them apart). -/
inductive SummErr where
  | articleNotFound (articleId : Nat)
  | noConfig
deriving Repr, DecidableEq

/-- The `Summary` row that steps 3 to 6 of `summarize_article` build:
the article content is HTML-stripped and truncated to 4000 characters,
rendered into the prompt template, sent to the provider, and the
response is parsed into summary text and key points (stored as NULL when
the list is empty). -/
def mk_summary (nextId : Nat) (chat : Chat) (article : ArticleRec)
    (cfg : ConfigRow) (articleId : Nat) : SummaryRow :=
  let cleanContent := truncateTextS (htmlToTextS article.content) 4000
  let prompt := article_summary_prompt article.title cleanContent
  let resp := chat prompt
  let parsed := parseLlmSummaryS resp.content
  { summaryId := nextId
    articleId := articleId
    llmProvider := cfg.providerType
    llmModel := cfg.modelName
    summaryText := parsed.1
    keyPoints := if parsed.2.isEmpty then none else some parsed.2
    tokenUsage := some resp.totalTokens }

/-- The `summarize_article` service: return the existing summary
untouched when one exists, otherwise load the article, resolve the
provider, invoke it once (counted) and persist the new `Summary` row. -/
def summarize_article (db : SummDB) (chat : Chat) (articleId : Nat)
    (llmConfigId : Option Nat) : SummDB × Except SummErr SummaryRow :=
  match db.summaries.find? (fun s => s.articleId == articleId) with
  | some existing => (db, .ok existing)
  | none =>
    match db.articles.find? (fun a => a.articleId == articleId) with
    | none => (db, .error (.articleNotFound articleId))
    | some article =>
      match resolve_config db llmConfigId with
      | none => (db, .error .noConfig)
      | some cfg =>
        ({ db with
            summaries := db.summaries ++
              [mk_summary db.nextSummaryId chat article cfg articleId]
            nextSummaryId := db.nextSummaryId + 1
            providerCalls := db.providerCalls + 1 },
         .ok (mk_summary db.nextSummaryId chat article cfg articleId))

/-- `DIGEST_PROMPT.format(...)` from app/llm/prompts.py. -/
def digest_prompt (period startStr endStr summaries : String) : String :=
  "Based on the following article summaries from " ++ period ++
  " (" ++ startStr ++ " to " ++ endStr ++ "), " ++
  "create a comprehensive digest report in Chinese Markdown format. " ++
  "Group by topic/theme. Include:\n" ++
  "1) Executive summary\n" ++
  "2) Key trends\n" ++
  "3) Detailed per-topic breakdown\n" ++
  "4) Notable highlights\n\n" ++
  "Article summaries:\n" ++ summaries

/-- The `_build_summaries_text` helper: render each article that has a
summary as an indexed block with its text and optional key-point
bullets, joined by a separator. -/
def build_summaries_text (db : SummDB) (articles : List ArticleRec) : String :=
  joinWithS "\n\n---\n\n" <| articles.enum.filterMap fun p =>
    match db.summaries.find? (fun s => s.articleId == p.2.articleId) with
    | none => none
    | some s =>
      let header := "[" ++ toString (p.1 + 1) ++ "] " ++ p.2.title
      let kps :=
        match s.keyPoints with
        | some (k :: ks) =>
          "\nKey points:\n" ++ joinWithS "\n" ((k :: ks).map fun kp => "  - " ++ kp)
        | _ => ""
      some (header ++ "\n" ++ s.summaryText ++ kps)

/-- Errors raised by `generate_digest` (both are `ValueError`). -/
inductive DigestErr where
  | noSummarized
  | noConfig
deriving Repr, DecidableEq

/-- The `published_at`-range predicate of the digest query: NULL
timestamps never satisfy the SQL comparison, others must fall in the
half-open window. -/
def in_window (start stop : DT) (a : ArticleRec) : Bool :=
  match a.publishedAt with
  | some t => dtLe start t && dtLt t stop
  | none => false

/-- Whether an article has a `Summary` row. -/
def has_summary (db : SummDB) (a : ArticleRec) : Bool :=
  (db.summaries.find? fun s => s.articleId == a.articleId).isSome

/-- The article set `generate_digest` works on: the window query
followed by the summary filter.  The `order_by(published_at)` of the
query only affects the rendering order inside the prompt and is not
modelled. -/
def digest_candidates (db : SummDB) (start stop : DT) : List ArticleRec :=
  (db.articles.filter (in_window start stop)).filter (has_summary db)

/-- The `DigestReport` row that the success path of `generate_digest`
builds: the kept articles are rendered, sent to the provider, and the
response becomes the report content. -/
def mk_digest_report (db : SummDB) (chat : Chat) (periodType : String)
    (start stop : DT) (cfg : ConfigRow) : DigestRow :=
  let sumText := build_summaries_text db (digest_candidates db start stop)
  let prompt :=
    digest_prompt periodType (format_date start) (format_date stop) sumText
  let resp := chat prompt
  { digestId := db.nextDigestId
    periodType := periodType
    periodStart := start
    periodEnd := stop
    content := resp.content
    articleCount := (digest_candidates db start stop).length
    llmProvider := cfg.providerType
    llmModel := cfg.modelName }

/-- The `generate_digest` service: select articles published inside
`[start, stop)`, keep those with a summary, fail before any provider
call when none remain, otherwise invoke the provider once (counted) and
persist a fresh `DigestReport`. -/
def generate_digest (db : SummDB) (chat : Chat) (periodType : String)
    (start stop : DT) (llmConfigId : Option Nat) :
    SummDB × Except DigestErr DigestRow :=
  if (digest_candidates db start stop).isEmpty then (db, .error .noSummarized)
  else
    match resolve_config db llmConfigId with
    | none => (db, .error .noConfig)
    | some cfg =>
      ({ db with
          digests := db.digests ++ [mk_digest_report db chat periodType start stop cfg]
          nextDigestId := db.nextDigestId + 1
          providerCalls := db.providerCalls + 1 },
       .ok (mk_digest_report db chat periodType start stop cfg))

/-! ### Provider-config default management (app/routers/llm.py) -/

/-- The `create_provider` endpoint: when the new config asks to be the
default, every existing config is demoted first, then the new row is
inserted with the requested flag. -/
def create_provider (cfgs : List ConfigRow) (newId : Nat)
    (providerType modelName : String) (bodyIsDefault : Bool) : List ConfigRow :=
  let cfgs :=
    if bodyIsDefault then cfgs.map (fun c => { c with isDefault := false }) else cfgs
  cfgs ++ [{ configId := newId, providerType := providerType,
             modelName := modelName, isDefault := bodyIsDefault }]

/-- The `update_provider` endpoint, restricted to the `is_default` field
of the update body (`none` models a body that omits the field; the other
updatable columns cannot affect the default flag).  Returns `none` for
the 404 on an unknown id.  When the body sets the flag to true, every
other config is demoted first; then the field is written onto the
addressed config. -/
def update_provider (cfgs : List ConfigRow) (cid : Nat)
    (updIsDefault : Option Bool) : Option (List ConfigRow) :=
  if cfgs.any (fun c => c.configId == cid) then
    let cfgs :=
      if updIsDefault == some true then
        cfgs.map fun c => if c.configId != cid then { c with isDefault := false } else c
      else cfgs
    some (cfgs.map fun c =>
      if c.configId == cid then { c with isDefault := updIsDefault.getD c.isDefault }
      else c)
  else none

/-- The `set_default_provider` endpoint: demote every other config, then
mark the addressed one as default; 404 on an unknown id. -/
def set_default_provider (cfgs : List ConfigRow) (cid : Nat) :
    Option (List ConfigRow) :=
  if cfgs.any (fun c => c.configId == cid) then
    let demoted := cfgs.map fun c =>
      if c.configId != cid then { c with isDefault := false } else c
    some (demoted.map fun c =>
      if c.configId == cid then { c with isDefault := true } else c)
  else none

/-- Number of configs with the default flag set. -/
def count_defaults (cfgs : List ConfigRow) : Nat :=
  (cfgs.filter fun c => c.isDefault).length

/-! ### Digest period windows (app/services/digest_service.py) -/

/-- Gregorian leap-year test. -/
def is_leap (y : Int) : Bool := y % 4 == 0 && (y % 100 != 0 || y % 400 == 0)

/-- Length of a month of the Gregorian calendar. -/
def days_in_month (y : Int) (m : Nat) : Nat :=
  if m == 2 then (if is_leap y then 29 else 28)
  else if m == 4 || m == 6 || m == 9 || m == 11 then 30
  else 31

/-- The previous calendar day (time of day untouched), as
`timedelta(days=1)` subtraction computes it. -/
def pred_day (d : DT) : DT :=
  if d.day > 1 then { d with day := d.day - 1 }
  else if d.month > 1 then
    { d with month := d.month - 1, day := days_in_month d.year (d.month - 1) }
  else { d with year := d.year - 1, month := 12, day := 31 }

/-- `date - timedelta(days=n)`. -/
def sub_days : DT → Nat → DT
  | d, 0 => d
  | d, n + 1 => sub_days (pred_day d) n

/-- The window computation of `generate_monthly_digest`: the anchor is
truncated to the first of its month at 00:00 UTC, and the exclusive end
is the first of the following month, rolling the year over after
December. -/
def monthly_window (anchor : DT) : DT × DT :=
  let start : DT := { anchor with day := 1, hour := 0, minute := 0, second := 0 }
  let stop : DT :=
    if start.month == 12 then { start with year := start.year + 1, month := 1 }
    else { start with month := start.month + 1 }
  (start, stop)

/-- The default anchor of `generate_monthly_digest` when no date is
given: `utcnow() - timedelta(days=32)`. -/
def monthly_default_anchor (now : DT) : DT := sub_days now 32

/-- A datetime is valid when its month and day denote a real Gregorian
calendar date. -/
def validDT (d : DT) : Prop :=
  1 ≤ d.month ∧ d.month ≤ 12 ∧ 1 ≤ d.day ∧ d.day ≤ days_in_month d.year d.month

instance (d : DT) : Decidable (validDT d) := by
  unfold validDT; infer_instance

/-- Linearisation of (year, month) used to compare calendar months. -/
def monthIdx (d : DT) : Int := d.year * 12 + (d.month : Int)

/-! ### Gemini message conversion (app/llm/gemini_provider.py) -/

/-- A role-tagged chat message of the uniform provider contract. -/
structure ChatMsg where
  role : String
  content : String
deriving Repr, DecidableEq

/-- One Gemini `contents` element; `parts` is the list of the `text`
fields of the part objects. -/
structure GContent where
  role : String
  parts : List String
deriving Repr, DecidableEq

/-- The loop of `_to_gemini_contents`: `sys` is the accumulated
`system_parts`.  System content is buffered; an assistant message
becomes a `model` turn; any other role becomes a `user` turn that
absorbs (and clears) the buffered system text. -/
def to_gemini_aux : List String → List ChatMsg → List GContent
  | _, [] => []
  | sys, m :: rest =>
    if m.role == "system" then to_gemini_aux (sys ++ [m.content]) rest
    else if m.role == "assistant" then
      ⟨"model", [m.content]⟩ :: to_gemini_aux sys rest
    else
      if sys.isEmpty then ⟨"user", [m.content]⟩ :: to_gemini_aux sys rest
      else
        ⟨"user", [joinWithS "\n\n" sys ++ "\n\n" ++ m.content]⟩ ::
          to_gemini_aux [] rest

/-- `_to_gemini_contents`. -/
def to_gemini_contents (messages : List ChatMsg) : List GContent :=
  to_gemini_aux [] messages

/-! ### Anthropic request construction (app/llm/anthropic_provider.py) -/

/-- The parts of the Anthropic request payload the claim is about (model
name, the filtered messages array, and the optional top-level system
field; the float temperature is irrelevant to every claim). -/
structure AnthropicPayload where
  modelName : String
  messages : List ChatMsg
  system : Option String
deriving Repr, DecidableEq

/-- The payload assembly inside `AnthropicProvider.chat`: the loop
overwrites `system_text` with the content of every system message it
meets, collects the non-system messages, substitutes a placeholder user
turn when nothing remains, and attaches the `system` field only when the
final `system_text` is truthy (non-`None` and non-empty). -/
def anthropic_build (modelName : String) (messages : List ChatMsg) :
    AnthropicPayload :=
  let sysText := messages.foldl
    (fun acc m => if m.role == "system" then some m.content else acc)
    (none : Option String)
  let apiMessages := messages.filter fun m => m.role != "system"
  let apiMessages := if apiMessages.isEmpty then [⟨"user", "hi"⟩] else apiMessages
  { modelName := modelName
    messages := apiMessages
    system :=
      match sysText with
      | some s => if s ≠ "" then some s else none
      | none => none }

/-! ### Concrete fixtures used by witness theorems -/

/-- A freshly created feed row. -/
def feedW : Feed := ⟨1, "https://x/feed.xml", "", none, none, none, none, none⟩

/-- A 200 response carrying two entries, the second without id and link. -/
def respW : HttpResp :=
  ⟨200, some "W1", none, ⟨some "Example", none, none, some "https://x"⟩,
   [⟨some "g1", some "https://x/p1", some "Post", none, ["<p>Body</p>"], none, some 100⟩,
    ⟨none, none, some "Foo", none, [], some "Sum", none⟩]⟩

/-- The state after ingesting `respW` into `feedW` over an empty table. -/
def fetchW : FetchResult := fetch_feed feedW [] (.ok respW) 0

/-- A summary row for article 7. -/
def summaryW : SummaryRow := ⟨1, 7, "openai", "gpt", "text", none, some 5⟩

/-- A database where article 7 is already summarized. -/
def dbW : SummDB :=
  { articles := [⟨7, "Title", "Body", some { year := 2024, month := 3, day := 10 }⟩]
    summaries := [summaryW]
    configs := [⟨1, "openai", "gpt", true⟩]
    digests := [] }

/-- A database with no articles at all. -/
def dbEmptyW : SummDB := { articles := [], summaries := [], configs := [], digests := [] }

/-- A provider oracle for witnesses. -/
def chatW : Chat := fun _ => ⟨"resp", 1, 2, 3⟩

/-! ### Theorems -/

/-- C7: the GUID of a parsed feed entry is computed by strict priority:
the entry id when present and non-empty, else the entry link when
present and non-empty, else the `"{feedURL}#{title}"` fallback (with an
absent title read as the empty string); the entry with no id, no link
and title `"Foo"` on feed `https://x/feed.xml` gets GUID
`"https://x/feed.xml#Foo"`. -/
theorem entry_guid_priority (e : FeedEntry) (u : String) :
    (∀ s, e.entryId = some s → s ≠ "" → entry_guid e u = s) ∧
    (truthy e.entryId = false →
      ∀ l, e.link = some l → l ≠ "" → entry_guid e u = l) ∧
    (truthy e.entryId = false → truthy e.link = false →
      entry_guid e u = u ++ "#" ++ e.title.getD "") ∧
    entry_guid ⟨none, none, some "Foo", none, [], none, none⟩ "https://x/feed.xml"
      = "https://x/feed.xml#Foo" := by
  refine ⟨?_, ?_, ?_, by decide⟩
  · intro s hs hne
    simp [entry_guid, truthy, hs, hne]
  · intro hid l hl hne
    unfold entry_guid
    rw [hid]
    simp [truthy, hl, hne]
  · intro hid hl
    unfold entry_guid
    rw [hid, hl]
    simp

/-- Witness for C7: the id wins over the link on a concrete entry. -/
theorem entry_guid_priority_witness :
    (⟨some "ID", some "L", some "T", none, [], none, none⟩ : FeedEntry).entryId
        = some "ID" ∧
    entry_guid ⟨some "ID", some "L", some "T", none, [], none, none⟩ "u" = "ID" :=
  ⟨rfl, (entry_guid_priority ⟨some "ID", some "L", some "T", none, [], none, none⟩
    "u").1 "ID" rfl (by decide)⟩

/-- C10: when the conditional GET fails at the network level,
`fetch_feed` raises and the feed row is untouched — `last_fetched_at`,
`etag` and `last_modified` keep their prior values and no article is
inserted, because the timestamp write only happens after a response is
received. -/
theorem fetch_feed_network_error (feed : Feed) (arts : List ArticleRow)
    (e : NetErr) (now : Int) :
    (fetch_feed feed arts (.error e) now).feed = feed ∧
    (fetch_feed feed arts (.error e) now).articles = arts ∧
    (fetch_feed feed arts (.error e) now).outcome = .error (.network e) :=
  ⟨rfl, rfl, rfl⟩

/-- Helper: a prefix of messages that are all system-tagged is folded
into the accumulated system buffer. -/
theorem to_gemini_aux_sys_prefix (ss : List ChatMsg)
    (h : ∀ m ∈ ss, m.role = "system") (sys : List String) (rest : List ChatMsg) :
    to_gemini_aux sys (ss ++ rest) =
      to_gemini_aux (sys ++ ss.map fun m => m.content) rest := by
  induction ss generalizing sys with
  | nil => simp
  | cons m ms ih =>
    have hm : m.role = "system" := h m (List.mem_cons_self m ms)
    have ih2 := ih (fun x hx => h x (List.mem_cons_of_mem m hx)) (sys ++ [m.content])
    simp only [List.cons_append]
    simp [to_gemini_aux, hm, ih2, List.append_assoc]

/-- C6 (amended): the Gemini conversion renames role `assistant` to
`model`; buffered system content is prepended (joined by blank lines) to
the next user turn that follows it and the buffer is then cleared, so in
particular all consecutive leading system messages are concatenated and
prepended to the text of the first user message; leading system messages
followed by no message at all are dropped. -/
theorem gemini_contents_spec (ss : List ChatMsg) (t : String)
    (rest : List ChatMsg) (h : ∀ m ∈ ss, m.role = "system") :
    to_gemini_contents (ss ++ ⟨"user", t⟩ :: rest) =
      ⟨"user",
        [if ss.isEmpty then t
         else joinWithS "\n\n" (ss.map fun m => m.content) ++ "\n\n" ++ t]⟩ ::
        to_gemini_aux [] rest ∧
    to_gemini_contents ss = [] ∧
    (∀ (sys : List String) (t2 : String) (r2 : List ChatMsg),
      to_gemini_aux sys (⟨"assistant", t2⟩ :: r2) =
        ⟨"model", [t2]⟩ :: to_gemini_aux sys r2) ∧
    (∀ (sys : List String) (t2 : String) (r2 : List ChatMsg), sys ≠ [] →
      to_gemini_aux sys (⟨"user", t2⟩ :: r2) =
        ⟨"user", [joinWithS "\n\n" sys ++ "\n\n" ++ t2]⟩ :: to_gemini_aux [] r2) := by
  refine ⟨?_, ?_, ?_, ?_⟩
  · rw [to_gemini_contents, to_gemini_aux_sys_prefix ss h]
    simp only [List.nil_append, to_gemini_aux]
    by_cases hss : ss = []
    · subst hss; simp [to_gemini_aux]
    · have h1 : (ss.map fun m => m.content).isEmpty = false := by
        simp [List.isEmpty_iff, hss]
      have h2 : ss.isEmpty = false := by simp [List.isEmpty_iff, hss]
      simp [h1, h2]
  · have h0 := to_gemini_aux_sys_prefix ss h [] []
    simpa [to_gemini_contents, to_gemini_aux] using h0
  · intro sys t2 r2
    simp [to_gemini_aux]
  · intro sys t2 r2 hsys
    have h1 : sys.isEmpty = false := by simp [List.isEmpty_iff, hsys]
    simp [to_gemini_aux, h1]

/-- Witness for C6: two leading system messages land, joined, in front
of the first user message. -/
theorem gemini_contents_spec_witness :
    to_gemini_contents [⟨"system", "s1"⟩, ⟨"system", "s2"⟩, ⟨"user", "u"⟩] =
      [⟨"user", ["s1\n\ns2\n\nu"]⟩] :=
  ((gemini_contents_spec [⟨"system", "s1"⟩, ⟨"system", "s2"⟩] "u" []
    (by decide)).1).trans (by decide)

/-- Counterexample for C6 as stated: the claim says system content is
only ever prepended to the first user message and is never attached to a
later turn, but for `[user "a", system "s", user "b"]` the code attaches
the system text to the second user turn. -/
theorem gemini_system_attached_to_later_turn :
    to_gemini_contents [⟨"user", "a"⟩, ⟨"system", "s"⟩, ⟨"user", "b"⟩] =
      [⟨"user", ["a"]⟩, ⟨"user", ["s\n\nb"]⟩] ∧
    (to_gemini_contents [⟨"user", "a"⟩, ⟨"system", "s"⟩, ⟨"user", "b"⟩]).getLast?
      ≠ some ⟨"user", ["b"]⟩ := by decide

/-- Helper: prepending an element to a list commutes with taking the
last element, absorbing any fallback. -/
theorem getLast?_or_cons {α : Type} (l : List α) (a : α) (acc : Option α) :
    (l.getLast?).or (some a) = ((a :: l).getLast?).or acc := by
  cases l with
  | nil => simp
  | cons b t =>
    rw [List.getLast?_cons_cons]
    have h1 : (b :: t).getLast?.isSome := by
      rw [Option.isSome_iff_ne_none]
      simp [List.getLast?_eq_none_iff]
    obtain ⟨x, hx⟩ := Option.isSome_iff_exists.mp h1
    simp [hx]

/-- Helper: the overwrite-fold of `AnthropicProvider.chat` computes the
content of the last system message, falling back to the accumulator. -/
theorem anthropic_fold_last (msgs : List ChatMsg) (acc : Option String) :
    msgs.foldl (fun a m => if m.role == "system" then some m.content else a) acc =
      ((((msgs.filter fun m => m.role == "system").map
          fun m => m.content).getLast?).or acc) := by
  induction msgs generalizing acc with
  | nil => simp
  | cons m ms ih =>
    cases hm : (m.role == "system") with
    | true =>
      simp only [List.foldl_cons, List.filter_cons, hm, if_true, List.map_cons]
      rw [ih (some m.content)]
      exact getLast?_or_cons _ _ _
    | false =>
      simp only [List.foldl_cons, List.filter_cons, hm, if_neg, Bool.false_eq_true,
        if_false]
      exact ih acc

/-- C9 (amended): with more than one system-role message, only the last
system message determines the Anthropic top-level `system` field — its
content is sent when non-empty and the field is omitted when it is empty
— while every system message is removed from the messages array and the
content of the earlier ones is silently dropped (not concatenated); the
non-system messages pass through unchanged whenever any exist. -/
theorem anthropic_last_system_wins (mn : String) (msgs : List ChatMsg) (s : String)
    (hcount : 2 ≤ (msgs.filter fun m => m.role == "system").length)
    (hlast : ((msgs.filter fun m => m.role == "system").map
      fun m => m.content).getLast? = some s) :
    (anthropic_build mn msgs).system = (if s = "" then none else some s) ∧
    (∀ m ∈ (anthropic_build mn msgs).messages, m.role ≠ "system") ∧
    ((msgs.filter fun m => m.role != "system") ≠ [] →
      (anthropic_build mn msgs).messages = msgs.filter fun m => m.role != "system") := by
  refine ⟨?_, ?_, ?_⟩
  · unfold anthropic_build
    rw [anthropic_fold_last, hlast]
    simp only [Option.or_some]
    by_cases hs : s = ""
    · simp [hs]
    · simp [hs]
  · intro m hm
    unfold anthropic_build at hm
    simp only at hm
    by_cases hfil : (msgs.filter fun m => m.role != "system") = []
    · rw [hfil] at hm
      simp at hm
      rw [hm]
      decide
    · have h2 : ((msgs.filter fun m => m.role != "system").isEmpty) = false := by
        simp [List.isEmpty_iff, hfil]
      rw [h2] at hm
      simp only [if_false, Bool.false_eq_true] at hm
      have := List.of_mem_filter hm
      simpa using this
  · intro hfil
    unfold anthropic_build
    have h2 : ((msgs.filter fun m => m.role != "system").isEmpty) = false := by
      simp [List.isEmpty_iff, hfil]
    simp [h2]

/-- Witness for C9: with two system messages the later one becomes the
`system` field. -/
theorem anthropic_last_system_wins_witness :
    (anthropic_build "claude" [⟨"system", "a"⟩, ⟨"system", "b"⟩, ⟨"user", "u"⟩]).system
      = some "b" :=
  ((anthropic_last_system_wins "claude"
    [⟨"system", "a"⟩, ⟨"system", "b"⟩, ⟨"user", "u"⟩] "b"
    (by decide) (by decide)).1).trans (by decide)

/-- Counterexample for C9 as stated: with two system messages whose last
content is empty, the content of the last system message is not sent as
the top-level system field — the field is omitted entirely (`if
system_text:` is false on the empty string). -/
theorem anthropic_empty_last_system_omitted :
    ((([⟨"system", "a"⟩, ⟨"system", ""⟩, ⟨"user", "u"⟩] : List ChatMsg).filter
        (fun m => m.role == "system")).map fun m => m.content).getLast? = some "" ∧
    (anthropic_build "claude"
      [⟨"system", "a"⟩, ⟨"system", ""⟩, ⟨"user", "u"⟩]).system ≠ some "" ∧
    (anthropic_build "claude"
      [⟨"system", "a"⟩, ⟨"system", ""⟩, ⟨"user", "u"⟩]).system = none := by decide

/-- Helper: demoting every config clears every default flag. -/
theorem filter_default_demoted (cfgs : List ConfigRow) :
    (cfgs.map fun c => { c with isDefault := false }).filter
      (fun c => c.isDefault) = [] := by
  induction cfgs with
  | nil => rfl
  | cons c cs ih => simpa using ih

/-- Helper: demoting the others and then promoting the addressed config
acts pointwise on the table. -/
theorem map_map_default (cfgs : List ConfigRow) (cid : Nat) :
    ((cfgs.map fun c =>
        if c.configId != cid then { c with isDefault := false } else c).map
      fun c => if c.configId == cid then { c with isDefault := true } else c) =
    cfgs.map fun c =>
      if c.configId == cid then { c with isDefault := true }
      else { c with isDefault := false } := by
  rw [List.map_map]
  apply List.map_congr_left
  intro c _
  cases hc : (c.configId == cid) with
  | true =>
    have h1 : c.configId = cid := eq_of_beq hc
    simp [Function.comp, h1]
  | false =>
    have h1 : ¬ c.configId = cid := ne_of_beq_false hc
    simp [Function.comp, h1]

/-- Helper: after the pointwise demote-and-promote pass, the default
configs are exactly those whose id is the addressed one. -/
theorem count_defaults_pointwise (cfgs : List ConfigRow) (cid : Nat) :
    count_defaults (cfgs.map fun c =>
      if c.configId == cid then { c with isDefault := true }
      else { c with isDefault := false }) =
    (cfgs.filter fun c => c.configId == cid).length := by
  induction cfgs with
  | nil => rfl
  | cons c cs ih =>
    cases hc : (c.configId == cid) with
    | true =>
      have h1 : c.configId = cid := eq_of_beq hc
      simp [count_defaults, List.filter_cons, h1] at ih ⊢
      omega
    | false =>
      have h1 : ¬ c.configId = cid := ne_of_beq_false hc
      simpa [count_defaults, List.filter_cons, h1] using ih

/-- Helper: with pairwise-distinct primary keys, a present id matches
exactly one row. -/
theorem nodup_filter_id_length (cfgs : List ConfigRow) (cid : Nat)
    (hnd : (cfgs.map fun c => c.configId).Nodup)
    (hmem : cfgs.any (fun c => c.configId == cid) = true) :
    (cfgs.filter fun c => c.configId == cid).length = 1 := by
  induction cfgs with
  | nil => simp at hmem
  | cons c cs ih =>
    simp only [List.map_cons, List.nodup_cons] at hnd
    cases hc : (c.configId == cid) with
    | true =>
      have hcid : c.configId = cid := eq_of_beq hc
      have hnil : (cs.filter fun x => x.configId == cid) = [] := by
        rw [List.filter_eq_nil_iff]
        intro x hx hxc
        exact hnd.1 (hcid ▸ (eq_of_beq hxc) ▸ List.mem_map_of_mem _ hx)
      simp [List.filter_cons, hc, hnil]
    | false =>
      have hmem2 : cs.any (fun c => c.configId == cid) = true := by
        simpa [List.any_cons, hc] using hmem
      simpa [List.filter_cons, hc] using ih hnd.2 hmem2

/-- C3: every provider-config operation that sets the default flag —
create, partial update with `is_default=true`, and the set-default
endpoint — demotes all other configs in the same operation, so exactly
one config carries the flag afterwards, whatever the prior state
(primary keys are pairwise distinct, as the database guarantees). -/
theorem default_flag_unique (cfgs : List ConfigRow) (cid newId : Nat)
    (pt mn : String) (hnd : (cfgs.map fun c => c.configId).Nodup) :
    count_defaults (create_provider cfgs newId pt mn true) = 1 ∧
    (cfgs.any (fun c => c.configId == cid) = true →
      ∀ r, update_provider cfgs cid (some true) = some r → count_defaults r = 1) ∧
    (cfgs.any (fun c => c.configId == cid) = true →
      ∀ r, set_default_provider cfgs cid = some r → count_defaults r = 1) := by
  refine ⟨?_, ?_, ?_⟩
  · unfold create_provider count_defaults
    rw [if_pos rfl, List.filter_append, filter_default_demoted]
    rfl
  · intro hany r hr
    unfold update_provider at hr
    rw [if_pos hany] at hr
    simp only [Option.some.injEq] at hr
    rw [← hr, show ((some true : Option Bool) == some true) = true from rfl, if_pos rfl]
    have heq : (cfgs.map fun c =>
        if c.configId != cid then { c with isDefault := false } else c).map
          (fun c => if c.configId == cid
            then { c with isDefault := (some true : Option Bool).getD c.isDefault }
            else c) =
        cfgs.map fun c =>
          if c.configId == cid then { c with isDefault := true }
          else { c with isDefault := false } := map_map_default cfgs cid
    rw [heq, count_defaults_pointwise]
    exact nodup_filter_id_length cfgs cid hnd hany
  · intro hany r hr
    unfold set_default_provider at hr
    rw [if_pos hany] at hr
    simp only [Option.some.injEq] at hr
    rw [← hr, map_map_default, count_defaults_pointwise]
    exact nodup_filter_id_length cfgs cid hnd hany

/-- Witness for C3: starting from two configs that are (illegally) both
default, each operation leaves exactly one default. -/
theorem default_flag_unique_witness :
    count_defaults (create_provider
      [⟨1, "openai", "g", true⟩, ⟨2, "gemini", "h", true⟩] 3 "anthropic" "c" true)
      = 1 :=
  (default_flag_unique [⟨1, "openai", "g", true⟩, ⟨2, "gemini", "h", true⟩]
    2 3 "anthropic" "c" (by decide)).1

/-- Helper: a line that strips to nothing is entirely whitespace. -/
theorem strip_nil_dropWhile (l : List Char) :
    pyStrip l = [] → l.dropWhile pyIsSpace = [] := by
  induction l with
  | nil => intro _; rfl
  | cons c cs ih =>
    intro h
    cases hc : pyIsSpace c with
    | true =>
      rw [List.dropWhile_cons_of_pos hc]
      apply ih
      unfold pyStrip at h ⊢
      rwa [List.dropWhile_cons_of_pos hc] at h
    | false =>
      exfalso
      unfold pyStrip at h
      rw [List.dropWhile_cons_of_neg (by simp [hc])] at h
      rw [List.reverse_eq_nil_iff, List.dropWhile_eq_nil_iff] at h
      have := h c (by simp)
      simp [hc] at this

/-- Helper: a blank line never matches the bullet pattern. -/
theorem matchBullet_of_blank (l : List Char) (h : pyStrip l = []) :
    matchBullet l = none := by
  unfold matchBullet
  rw [strip_nil_dropWhile l h]

/-- Helper: the parse loop collects, in order, the marker-stripped
content of every bullet line, discarding the points that are empty after
stripping. -/
theorem foldl_keyPoints (ls : List (List Char)) : ∀ st : ParseState,
    (ls.foldl parseLine st).keyPoints =
      st.keyPoints ++
        List.filter (fun p => !(p == []))
          (List.map stripBullet (List.filter isBulletLine ls)) := by
  induction ls with
  | nil => intro st; simp
  | cons l ls ih =>
    intro st
    rw [List.foldl_cons, List.filter_cons]
    cases hblank : (pyStrip l == []) with
    | true =>
      have hb : pyStrip l = [] := eq_of_beq hblank
      have hnb : isBulletLine l = false := by
        simp [isBulletLine, matchBullet_of_blank l hb]
      have hpl : parseLine st l = st := by simp [parseLine, hblank]
      rw [hpl, hnb]
      simpa using ih st
    | false =>
      cases hm : matchBullet l with
      | some rem =>
        have hbl : isBulletLine l = true := by simp [isBulletLine, hm]
        have hsb : stripBullet l = pyStrip rem := by simp [stripBullet, hm]
        rw [hbl]
        simp only [if_pos rfl, List.map_cons, List.filter_cons, hsb]
        cases hpt : (pyStrip rem == []) with
        | true =>
          have hpl : parseLine st l = { st with inBullets := true } := by
            simp [parseLine, hblank, hm, hpt]
          rw [hpl, ih _]
          simp [hsb, eq_of_beq hpt]
        | false =>
          have hpl : parseLine st l =
              { st with inBullets := true,
                        keyPoints := st.keyPoints ++ [pyStrip rem] } := by
            simp [parseLine, hblank, hm, hpt]
          rw [hpl, ih _]
          simp [hsb, List.isEmpty_iff, ne_of_beq_false hpt, List.append_assoc]
      | none =>
        have hbl : isBulletLine l = false := by simp [isBulletLine, hm]
        have hkp : (parseLine st l).keyPoints = st.keyPoints := by
          unfold parseLine
          rw [if_neg (by simp [hblank]), hm]
          cases st.inBullets <;> simp
        rw [ih (parseLine st l), hkp, hbl]
        simp

/-- Helper: once bullet mode is on, the summary lines are frozen. -/
theorem foldl_frozen (ls : List (List Char)) : ∀ st : ParseState,
    st.inBullets = true →
    (ls.foldl parseLine st).summaryLines = st.summaryLines ∧
    (ls.foldl parseLine st).inBullets = true := by
  induction ls with
  | nil => intro st h; exact ⟨rfl, h⟩
  | cons l ls ih =>
    intro st h
    rw [List.foldl_cons]
    have hst : (parseLine st l).summaryLines = st.summaryLines ∧
        (parseLine st l).inBullets = true := by
      unfold parseLine
      cases hb : (pyStrip l == []) with
      | true => simp [hb, h]
      | false =>
        simp only [hb, Bool.false_eq_true, if_false]
        cases hm : matchBullet l with
        | some rem => simp
        | none => simp [h]
    have h2 := ih (parseLine st l) hst.2
    exact ⟨h2.1.trans hst.1, h2.2⟩

/-- Helper: before the first bullet line, the parse loop accumulates the
stripped content of every non-blank line, in order. -/
theorem foldl_summary (ls : List (List Char)) : ∀ st : ParseState,
    st.inBullets = false →
    (ls.foldl parseLine st).summaryLines =
      st.summaryLines ++
        List.filter (fun s => !(s == []))
          (List.map pyStrip (List.takeWhile (fun l => !isBulletLine l) ls)) := by
  induction ls with
  | nil => intro st _; simp
  | cons l ls ih =>
    intro st h
    rw [List.foldl_cons, List.takeWhile_cons]
    cases hbl : isBulletLine l with
    | true =>
      obtain ⟨rem, hm⟩ : ∃ rem, matchBullet l = some rem := by
        have h1 : (matchBullet l).isSome = true := hbl
        exact Option.isSome_iff_exists.mp h1
      have hblank : (pyStrip l == []) = false := by
        cases hb : (pyStrip l == []) with
        | false => rfl
        | true =>
          rw [matchBullet_of_blank l (eq_of_beq hb)] at hm
          exact absurd hm (by simp)
      have hst' : (parseLine st l).inBullets = true ∧
          (parseLine st l).summaryLines = st.summaryLines := by
        unfold parseLine
        rw [if_neg (by simp [hblank]), hm]
        simp
      have hfy := foldl_frozen ls (parseLine st l) hst'.1
      rw [hfy.1, hst'.2]
      simp [hbl]
    | false =>
      cases hblank : (pyStrip l == []) with
      | true =>
        have hpl : parseLine st l = st := by simp [parseLine, hblank]
        rw [hpl, ih st h]
        have hb : pyStrip l = [] := eq_of_beq hblank
        simp [hbl, List.filter_cons, hb]
      | false =>
        have hmn : matchBullet l = none := by
          have h1 : (matchBullet l).isSome = false := hbl
          simpa [Option.isSome_iff_exists] using h1
        have hpl : parseLine st l =
            { st with summaryLines := st.summaryLines ++ [pyStrip l] } := by
          unfold parseLine
          rw [if_neg (by simp [hblank]), hmn, h]
          simp
        have hbne : pyStrip l ≠ [] := ne_of_beq_false hblank
        rw [hpl, ih _ (by simp [h])]
        simp [hbl, List.filter_cons, hbne, List.append_assoc]

/-- C4 (amended): the parser splits the stripped raw response into
lines; every line matching the bullet pattern (a `-`, `*`, `•` marker or
digits followed by `.` or `)`, the marker followed by whitespace)
becomes a key point with the marker stripped, except that a point which
is empty after stripping is discarded; every non-blank non-bullet line
before the first bullet line contributes, in order, to the prose summary
(stripped, joined by single spaces); non-bullet lines after the first
bullet line are discarded; and when both results are empty the entire
stripped raw response becomes the summary text.  The cited example
parses accordingly. -/
theorem parse_llm_summary_spec (raw : List Char) :
    (parse_llm_summary raw).2 =
      List.filter (fun p => !(p == []))
        (List.map stripBullet
          (List.filter isBulletLine (splitLines (pyStrip raw)))) ∧
    (parse_llm_summary raw).1 =
      (let prose := pyStrip (joinWith [' ']
        (List.filter (fun s => !(s == []))
          (List.map pyStrip
            (List.takeWhile (fun l => !isBulletLine l)
              (splitLines (pyStrip raw))))))
       let kps := List.filter (fun p => !(p == []))
        (List.map stripBullet
          (List.filter isBulletLine (splitLines (pyStrip raw))))
       if prose == [] && kps == [] then pyStrip raw else prose) ∧
    parseLlmSummaryS "This is great.\n- Point A\n- Point B"
      = ("This is great.", ["Point A", "Point B"]) := by
  have hkp := foldl_keyPoints (splitLines (pyStrip raw)) ⟨[], [], false⟩
  have hsm := foldl_summary (splitLines (pyStrip raw)) ⟨[], [], false⟩ rfl
  simp only [] at hkp hsm
  simp only [List.nil_append] at hkp hsm
  refine ⟨?_, ?_, by decide⟩
  · unfold parse_llm_summary
    simp only [hkp, apply_ite Prod.snd]
    simp
  · unfold parse_llm_summary
    simp only [hkp, hsm, apply_ite Prod.fst]

/-- Counterexample for C4 as stated: the line `"- "` matches the bullet
pattern, but the parser drops it instead of recording an empty key
point, so not every bullet line becomes a key point. -/
theorem parse_llm_summary_empty_point_dropped :
    isBulletLine ("- ").data = true ∧
    (parse_llm_summary ("x\n- \n- A").data).2 ≠
      ((splitLines (pyStrip ("x\n- \n- A").data)).filter isBulletLine).map
        stripBullet ∧
    (parse_llm_summary ("x\n- \n- A").data).2 = [("A").data] := by decide

/-- Helper: every Gregorian month has between 28 and 31 days. -/
theorem days_in_month_bounds (y : Int) (m : Nat) :
    1 ≤ days_in_month y m ∧ days_in_month y m ≤ 31 := by
  unfold days_in_month
  split
  · split <;> omega
  · split <;> omega

/-- Helper: stepping one day back preserves calendar validity. -/
theorem valid_pred (d : DT) (h : validDT d) : validDT (pred_day d) := by
  obtain ⟨h1, h2, h3, h4⟩ := h
  unfold pred_day
  by_cases hd : d.day > 1
  · rw [if_pos hd]
    refine ⟨h1, h2, ?_, ?_⟩
    · show 1 ≤ d.day - 1
      omega
    · show d.day - 1 ≤ days_in_month d.year d.month
      omega
  · rw [if_neg hd]
    by_cases hm : d.month > 1
    · rw [if_pos hm]
      refine ⟨?_, ?_, ?_, ?_⟩
      · show 1 ≤ d.month - 1
        omega
      · show d.month - 1 ≤ 12
        omega
      · show 1 ≤ days_in_month d.year (d.month - 1)
        exact (days_in_month_bounds _ _).1
      · show days_in_month d.year (d.month - 1) ≤ days_in_month d.year (d.month - 1)
        exact Nat.le_refl _
    · rw [if_neg hm]
      refine ⟨?_, ?_, ?_, ?_⟩
      · show (1 : Nat) ≤ 12
        omega
      · show (12 : Nat) ≤ 12
        omega
      · show (1 : Nat) ≤ 31
        omega
      · show (31 : Nat) ≤ days_in_month (d.year - 1) 12
        rw [show days_in_month (d.year - 1) 12 = 31 from rfl]

/-- Helper: stepping one day back never increases the calendar month,
and when the month survives, the day drops by exactly one. -/
theorem monthIdx_pred (d : DT) (h : validDT d) :
    monthIdx (pred_day d) ≤ monthIdx d ∧
    (monthIdx (pred_day d) = monthIdx d → (pred_day d).day + 1 = d.day) := by
  obtain ⟨h1, h2, h3, h4⟩ := h
  unfold pred_day
  by_cases hd : d.day > 1
  · rw [if_pos hd]
    refine ⟨le_of_eq rfl, fun _ => ?_⟩
    show d.day - 1 + 1 = d.day
    omega
  · rw [if_neg hd]
    by_cases hm : d.month > 1
    · rw [if_pos hm]
      constructor
      · show d.year * 12 + ((d.month - 1 : Nat) : Int) ≤ d.year * 12 + (d.month : Int)
        omega
      · intro hcon
        exfalso
        have hcon2 : d.year * 12 + ((d.month - 1 : Nat) : Int)
            = d.year * 12 + (d.month : Int) := hcon
        omega
    · rw [if_neg hm]
      have hm1 : d.month = 1 := by omega
      constructor
      · show (d.year - 1) * 12 + ((12 : Nat) : Int) ≤ d.year * 12 + (d.month : Int)
        rw [hm1]
        push_cast
        ring_nf
        omega
      · intro hcon
        exfalso
        have hcon2 : (d.year - 1) * 12 + ((12 : Nat) : Int)
            = d.year * 12 + (d.month : Int) := hcon
        rw [hm1] at hcon2
        push_cast at hcon2
        ring_nf at hcon2
        omega

/-- Helper: walking `n` days back either leaves the month untouched with
the day lowered by exactly `n`, or strictly lowers the month; validity
is preserved throughout. -/
theorem sub_days_month_lt (n : Nat) : ∀ d : DT, validDT d →
    validDT (sub_days d n) ∧
    (monthIdx (sub_days d n) < monthIdx d ∨
      (monthIdx (sub_days d n) = monthIdx d ∧ (sub_days d n).day + n = d.day)) := by
  induction n with
  | zero => intro d h; exact ⟨h, .inr ⟨rfl, rfl⟩⟩
  | succ n ih =>
    intro d h
    have hp := valid_pred d h
    have hm := monthIdx_pred d h
    have hrec := ih (pred_day d) hp
    rw [show sub_days d (n + 1) = sub_days (pred_day d) n from rfl]
    refine ⟨hrec.1, ?_⟩
    rcases hrec.2 with hlt | ⟨heq, hday⟩
    · exact .inl (lt_of_lt_of_le hlt hm.1)
    · rcases lt_or_eq_of_le hm.1 with hlt2 | heq2
      · exact .inl (heq ▸ hlt2)
      · have hd2 := hm.2 heq2
        exact .inr ⟨heq.trans heq2, by omega⟩

/-- Helper: thirty-two days ago is always in a strictly earlier calendar
month, because no month has more than 31 days. -/
theorem monthIdx_sub32_lt (d : DT) (h : validDT d) :
    monthIdx (sub_days d 32) < monthIdx d := by
  have H := sub_days_month_lt 32 d h
  rcases H.2 with hlt | ⟨heq, hday⟩
  · exact hlt
  · exfalso
    obtain ⟨h1, h2, h3, h4⟩ := h
    have := (days_in_month_bounds d.year d.month).2
    omega

/-- C8 (amended): for every anchor date, the monthly digest window is
the UTC calendar month containing it — start is the first of the month
at 00:00 UTC, end is the first of the next month at 00:00 UTC with the
year rolling over after December — and the anchor `2024-03-15` yields
`[2024-03-01T00:00Z, 2024-04-01T00:00Z)`.  The default anchor of 32
days before now always lands in a strictly earlier calendar month,
though not always the immediately preceding one (from 2024-03-01 it
lands in January). -/
theorem monthly_window_spec (anchor now : DT) (hv : validDT now) :
    (monthly_window anchor).1 =
      { year := anchor.year, month := anchor.month, day := 1 } ∧
    (monthly_window anchor).2 =
      (if anchor.month = 12 then { year := anchor.year + 1, month := 1, day := 1 }
       else { year := anchor.year, month := anchor.month + 1, day := 1 }) ∧
    monthIdx (monthly_default_anchor now) < monthIdx now ∧
    monthly_window { year := 2024, month := 3, day := 15, hour := 10, minute := 30 } =
      ({ year := 2024, month := 3, day := 1 }, { year := 2024, month := 4, day := 1 }) := by
  refine ⟨rfl, ?_, monthIdx_sub32_lt now hv, by decide⟩
  unfold monthly_window
  simp only []
  by_cases hm : anchor.month = 12
  · simp [hm]
  · have : (anchor.month == 12) = false := by
      cases hb : (anchor.month == 12) with
      | true => exact absurd (eq_of_beq hb) hm
      | false => rfl
    simp [this, hm]

/-- Witness for C8: the default anchor computed from a valid date lands
in an earlier month. -/
theorem monthly_window_spec_witness :
    validDT { year := 2024, month := 3, day := 1 } ∧
    monthIdx (monthly_default_anchor { year := 2024, month := 3, day := 1 }) <
      monthIdx { year := 2024, month := 3, day := 1 } :=
  ⟨by decide,
   (monthly_window_spec { year := 2024, month := 3, day := 15 }
     { year := 2024, month := 3, day := 1 } (by decide)).2.2.1⟩

/-- Counterexample for C8 as stated: the claim says the default anchor
of 32 days before now always lands in the prior month, but from
2024-03-01 (whose prior month is February 2024) it lands on 2024-01-29,
two months back. -/
theorem monthly_anchor_skips_february :
    monthly_default_anchor { year := 2024, month := 3, day := 1 } =
      { year := 2024, month := 1, day := 29 } ∧
    (monthly_default_anchor { year := 2024, month := 3, day := 1 }).month ≠ 2 := by
  decide

/-- Helper: searching an appended list starts over on the tail when the
head list has no match. -/
theorem find?_append_none {α : Type} (p : α → Bool) (l1 l2 : List α)
    (h : l1.find? p = none) : (l1 ++ l2).find? p = l2.find? p := by
  induction l1 with
  | nil => simp
  | cons a t ih =>
    rw [List.cons_append]
    cases hp : p a with
    | true =>
      rw [List.find?_cons_of_pos _ hp] at h
      exact absurd h (by simp)
    | false =>
      rw [List.find?_cons_of_neg _ (by simp [hp])] at h
      rw [List.find?_cons_of_neg _ (by simp [hp])]
      exact ih h

/-- C2: `summarize_article` is idempotent — when a summary already
exists for the article it is returned unchanged with the database state
untouched (hence no provider invocation); whatever a successful call
returns, an immediately repeated call returns the same summary row with
no further state change; and a successful call starting from no existing
summary performs exactly one provider invocation and leaves exactly one
summary row for the article. -/
theorem summarize_article_idempotent (db : SummDB) (chat : Chat) (aid : Nat)
    (cfg : Option Nat) :
    (∀ s, db.summaries.find? (fun r => r.articleId == aid) = some s →
      summarize_article db chat aid cfg = (db, .ok s)) ∧
    (∀ db1 s1, summarize_article db chat aid cfg = (db1, .ok s1) →
      summarize_article db1 chat aid cfg = (db1, .ok s1)) ∧
    (db.summaries.find? (fun r => r.articleId == aid) = none →
      ∀ db1 s1, summarize_article db chat aid cfg = (db1, .ok s1) →
        db1.providerCalls = db.providerCalls + 1 ∧
        (db1.summaries.filter fun r => r.articleId == aid).length = 1) := by
  refine ⟨?_, ?_, ?_⟩
  · intro s h
    unfold summarize_article
    rw [h]
  · intro db1 s1 h
    unfold summarize_article at h
    cases hfind : db.summaries.find? (fun r => r.articleId == aid) with
    | some s0 =>
      rw [hfind] at h
      rw [Prod.mk.injEq, Except.ok.injEq] at h
      obtain ⟨h1, h2⟩ := h
      subst h1
      subst h2
      unfold summarize_article
      rw [hfind]
    | none =>
      rw [hfind] at h
      cases harts : db.articles.find? (fun a => a.articleId == aid) with
      | none =>
        rw [harts] at h
        rw [Prod.mk.injEq] at h
        exact absurd h.2 (by simp)
      | some article =>
        rw [harts] at h
        cases hcfg : resolve_config db cfg with
        | none =>
          rw [hcfg] at h
          rw [Prod.mk.injEq] at h
          exact absurd h.2 (by simp)
        | some cfgr =>
          rw [hcfg] at h
          rw [Prod.mk.injEq, Except.ok.injEq] at h
          obtain ⟨h1, h2⟩ := h
          subst h1
          subst h2
          unfold summarize_article
          rw [show ({ db with
              summaries := db.summaries ++
                [mk_summary db.nextSummaryId chat article cfgr aid]
              nextSummaryId := db.nextSummaryId + 1
              providerCalls := db.providerCalls + 1 } : SummDB).summaries =
            db.summaries ++ [mk_summary db.nextSummaryId chat article cfgr aid]
            from rfl]
          rw [find?_append_none _ _ _ hfind]
          rw [show List.find? (fun r => r.articleId == aid)
              [mk_summary db.nextSummaryId chat article cfgr aid] =
            some (mk_summary db.nextSummaryId chat article cfgr aid) by
              simp [mk_summary]]
  · intro hfind db1 s1 h
    unfold summarize_article at h
    rw [hfind] at h
    cases harts : db.articles.find? (fun a => a.articleId == aid) with
    | none =>
      rw [harts] at h
      rw [Prod.mk.injEq] at h
      exact absurd h.2 (by simp)
    | some article =>
      rw [harts] at h
      cases hcfg : resolve_config db cfg with
      | none =>
        rw [hcfg] at h
        rw [Prod.mk.injEq] at h
        exact absurd h.2 (by simp)
      | some cfgr =>
        rw [hcfg] at h
        rw [Prod.mk.injEq, Except.ok.injEq] at h
        obtain ⟨h1, _⟩ := h
        subst h1
        have hnil : (db.summaries.filter fun r => r.articleId == aid) = [] := by
          rw [List.filter_eq_nil_iff]
          intro x hx hxa
          exact List.find?_eq_none.mp hfind x hx hxa
        constructor
        · rfl
        · rw [show ({ db with
              summaries := db.summaries ++
                [mk_summary db.nextSummaryId chat article cfgr aid]
              nextSummaryId := db.nextSummaryId + 1
              providerCalls := db.providerCalls + 1 } : SummDB).summaries =
            db.summaries ++ [mk_summary db.nextSummaryId chat article cfgr aid]
            from rfl]
          rw [List.filter_append, hnil]
          simp [mk_summary]

/-- Witness for C2: re-requesting the summary of article 7, which is
already summarized in `dbW`, returns the stored row and leaves the
database unchanged. -/
theorem summarize_article_idempotent_witness :
    summarize_article dbW chatW 7 none = (dbW, .ok summaryW) :=
  (summarize_article_idempotent dbW chatW 7 none).1 summaryW rfl

/-- C5: `generate_digest` works on exactly the articles whose
`published_at` lies in the half-open window `[start, stop)` and which
have a summary; that set is empty exactly when the call fails with the
no-summarized-articles error, returning the database unchanged — so no
`DigestReport` row is persisted and the provider is never invoked — and
a successful call reports the size of that set and appends exactly one
report while invoking the provider once. -/
theorem generate_digest_empty_window (db : SummDB) (chat : Chat)
    (period : String) (start stop : DT) (cfg : Option Nat) :
    digest_candidates db start stop =
      db.articles.filter (fun a => in_window start stop a && has_summary db a) ∧
    (digest_candidates db start stop = [] ↔
      generate_digest db chat period start stop cfg = (db, .error .noSummarized)) ∧
    (∀ db1 rep, generate_digest db chat period start stop cfg = (db1, .ok rep) →
      rep.articleCount = (digest_candidates db start stop).length ∧
      db1.digests = db.digests ++ [rep] ∧
      db1.providerCalls = db.providerCalls + 1) := by
  refine ⟨?_, ⟨?_, ?_⟩, ?_⟩
  · unfold digest_candidates
    rw [List.filter_filter]
    apply List.filter_congr
    intro a _
    exact Bool.and_comm _ _
  · intro hnil
    unfold generate_digest
    rw [hnil]
    rfl
  · intro h
    unfold generate_digest at h
    cases hemp : (digest_candidates db start stop).isEmpty with
    | true => exact List.isEmpty_iff.mp hemp
    | false =>
      exfalso
      rw [hemp] at h
      simp only [Bool.false_eq_true, if_false] at h
      cases hcfg : resolve_config db cfg with
      | none =>
        rw [hcfg] at h
        rw [Prod.mk.injEq] at h
        exact absurd h.2 (by simp)
      | some cfgr =>
        rw [hcfg] at h
        rw [Prod.mk.injEq] at h
        exact absurd h.2 (by simp)
  · intro db1 rep h
    unfold generate_digest at h
    cases hemp : (digest_candidates db start stop).isEmpty with
    | true =>
      rw [hemp] at h
      simp only [if_pos rfl] at h
      rw [Prod.mk.injEq] at h
      exact absurd h.2 (by simp)
    | false =>
      rw [hemp] at h
      simp only [Bool.false_eq_true, if_false] at h
      cases hcfg : resolve_config db cfg with
      | none =>
        rw [hcfg] at h
        rw [Prod.mk.injEq] at h
        exact absurd h.2 (by simp)
      | some cfgr =>
        rw [hcfg] at h
        rw [Prod.mk.injEq, Except.ok.injEq] at h
        obtain ⟨h1, h2⟩ := h
        subst h1
        subst h2
        exact ⟨rfl, rfl, rfl⟩

/-- Witness for C5: over an empty database every window is empty, and
digest generation fails without touching the state. -/
theorem generate_digest_empty_window_witness :
    generate_digest dbEmptyW chatW "daily"
      { year := 2024, month := 3, day := 1 } { year := 2024, month := 3, day := 2 }
      none = (dbEmptyW, .error .noSummarized) :=
  ((generate_digest_empty_window dbEmptyW chatW "daily"
    { year := 2024, month := 3, day := 1 } { year := 2024, month := 3, day := 2 }
    none).2.1.mp rfl)

/-- Helper: rows already present stay visible as the table grows. -/
theorem has_article_append (arts extra : List ArticleRow) (fid : Nat) (g : String)
    (h : has_article arts fid g = true) :
    has_article (arts ++ extra) fid g = true := by
  unfold has_article at h ⊢
  rw [List.any_append, h]
  rfl

/-- Helper: the ingest loop only ever appends to the articles table, so
presence of a row is preserved across a run. -/
theorem insert_entries_mono (feed : Feed) (es : List FeedEntry) :
    ∀ (arts : List ArticleRow) (fid : Nat) (g : String),
    has_article arts fid g = true →
    has_article (insert_entries feed arts es).1 fid g = true := by
  induction es with
  | nil => intro arts fid g h; exact h
  | cons e rest ih =>
    intro arts fid g h
    unfold insert_entries
    cases hd : has_article arts (build_article feed e).feedId
        (build_article feed e).guid with
    | true =>
      simp only [hd, if_true]
      exact ih arts fid g h
    | false =>
      simp only [hd, Bool.false_eq_true, if_false]
      exact ih (arts ++ [build_article feed e]) fid g
        (has_article_append arts _ fid g h)

/-- Helper: after an ingest run, every processed entry has a matching
`(feed_id, guid)` row — either it was inserted or it was already
there. -/
theorem insert_entries_mem (feed : Feed) (es : List FeedEntry) :
    ∀ (arts : List ArticleRow), ∀ e ∈ es,
    has_article (insert_entries feed arts es).1 feed.feedId
      (entry_guid e feed.url) = true := by
  induction es with
  | nil => intro arts e he; exact absurd he (List.not_mem_nil e)
  | cons e0 rest ih =>
    intro arts e he
    unfold insert_entries
    cases hd : has_article arts (build_article feed e0).feedId
        (build_article feed e0).guid with
    | true =>
      simp only [hd, if_true]
      rcases List.mem_cons.mp he with rfl | he2
      · have hd2 : has_article arts feed.feedId (entry_guid e feed.url) = true := hd
        exact insert_entries_mono feed rest arts _ _ hd2
      · exact ih arts e he2
    | false =>
      simp only [hd, Bool.false_eq_true, if_false]
      rcases List.mem_cons.mp he with rfl | he2
      · have hb : has_article (arts ++ [build_article feed e]) feed.feedId
            (entry_guid e feed.url) = true := by
          unfold has_article
          rw [List.any_append]
          have h1 : ([build_article feed e].any fun a =>
              a.feedId == feed.feedId && a.guid == entry_guid e feed.url) = true := by
            simp [build_article]
          rw [h1]
          simp
        exact insert_entries_mono feed rest _ _ _ hb
      · exact ih (arts ++ [build_article feed e0]) e he2

/-- Helper: when every entry already has a matching row, the ingest loop
inserts nothing and reports zero new articles. -/
theorem insert_entries_all_dup (feed : Feed) (es : List FeedEntry) :
    ∀ (arts : List ArticleRow),
    (∀ e ∈ es, has_article arts feed.feedId (entry_guid e feed.url) = true) →
    insert_entries feed arts es = (arts, 0) := by
  induction es with
  | nil => intro arts _; rfl
  | cons e rest ih =>
    intro arts h
    unfold insert_entries
    have hd : has_article arts (build_article feed e).feedId
        (build_article feed e).guid = true := h e (List.mem_cons_self e rest)
    simp only [hd, if_true]
    exact ih arts fun x hx => h x (List.mem_cons_of_mem e hx)

/-- Helper: the reported count is exactly the number of rows the run
appended to the table. -/
theorem insert_entries_count (feed : Feed) (es : List FeedEntry) :
    ∀ (arts : List ArticleRow),
    (insert_entries feed arts es).1.length =
      arts.length + (insert_entries feed arts es).2 := by
  induction es with
  | nil => intro arts; rfl
  | cons e rest ih =>
    intro arts
    unfold insert_entries
    cases hd : has_article arts (build_article feed e).feedId
        (build_article feed e).guid with
    | true =>
      simp only [hd, if_true]
      exact ih arts
    | false =>
      simp only [hd, Bool.false_eq_true, if_false]
      have h1 := ih (arts ++ [build_article feed e])
      simp only [List.length_append, List.length_singleton] at h1
      omega

/-- Helper: on a 200 response, `fetch_feed` records the fetch timestamp,
applies the metadata updates, and runs the ingest loop, reporting the
insert count. -/
theorem fetch_feed_200 (feed : Feed) (arts : List ArticleRow) (resp : HttpResp)
    (now : Int) (h : resp.status = 200) :
    fetch_feed feed arts (.ok resp) now =
      ⟨apply_meta { feed with lastFetchedAt := some now } resp,
       (insert_entries (apply_meta { feed with lastFetchedAt := some now } resp)
         arts resp.entries).1,
       .ok ⟨feed.feedId,
         (insert_entries (apply_meta { feed with lastFetchedAt := some now } resp)
           arts resp.entries).2, "ok"⟩⟩ := by
  simp only [fetch_feed]
  rw [h]
  rfl

/-- C1: during ingest each entry is inserted in its own savepoint, so a
`(feed, guid)` uniqueness violation skips only that entry while the loop
continues and the outer transaction with the feed-metadata updates is
preserved; the returned count counts exactly the successful inserts, and
re-ingesting the same feed content a second time inserts zero new
articles while still committing the metadata updates of the second
fetch. -/
theorem fetch_feed_reingest (feed : Feed) (arts : List ArticleRow)
    (resp : HttpResp) (now now2 : Int) (h : resp.status = 200) :
    (∀ (e : FeedEntry) (es : List FeedEntry),
      has_article arts (build_article feed e).feedId (build_article feed e).guid
        = true →
      insert_entries feed arts (e :: es) = insert_entries feed arts es) ∧
    (∀ f1 a1 o1, fetch_feed feed arts (.ok resp) now = ⟨f1, a1, o1⟩ →
      o1 = .ok ⟨feed.feedId, a1.length - arts.length, "ok"⟩ ∧
      arts.length ≤ a1.length ∧
      fetch_feed f1 a1 (.ok resp) now2 =
        ⟨apply_meta { f1 with lastFetchedAt := some now2 } resp, a1,
          .ok ⟨feed.feedId, 0, "ok"⟩⟩) := by
  constructor
  · intro e es hd
    unfold insert_entries
    simp only [hd, if_true]
    cases es <;> rfl
  · intro f1 a1 o1 heq
    rw [fetch_feed_200 feed arts resp now h] at heq
    rw [FetchResult.mk.injEq] at heq
    obtain ⟨hf, ha, ho⟩ := heq
    have hcount := insert_entries_count
      (apply_meta { feed with lastFetchedAt := some now } resp) resp.entries arts
    rw [ha] at hcount
    refine ⟨?_, ?_, ?_⟩
    · rw [← ho]
      have : (insert_entries (apply_meta { feed with lastFetchedAt := some now } resp)
          arts resp.entries).2 = a1.length - arts.length := by omega
      rw [this]
    · omega
    · subst hf
      rw [fetch_feed_200 _ a1 resp now2 h]
      have hmem : ∀ e ∈ resp.entries,
          has_article a1
            (apply_meta { apply_meta { feed with lastFetchedAt := some now } resp
              with lastFetchedAt := some now2 } resp).feedId
            (entry_guid e
              (apply_meta { apply_meta { feed with lastFetchedAt := some now } resp
                with lastFetchedAt := some now2 } resp).url) = true := by
        intro e he
        have h1 : has_article
            (insert_entries (apply_meta { feed with lastFetchedAt := some now } resp)
              arts resp.entries).1
            (apply_meta { feed with lastFetchedAt := some now } resp).feedId
            (entry_guid e
              (apply_meta { feed with lastFetchedAt := some now } resp).url) = true :=
          insert_entries_mem
            (apply_meta { feed with lastFetchedAt := some now } resp)
            resp.entries arts e he
        rw [ha] at h1
        exact h1
      have hdup := insert_entries_all_dup
        (apply_meta { apply_meta { feed with lastFetchedAt := some now } resp
          with lastFetchedAt := some now2 } resp) resp.entries a1 hmem
      rw [hdup]
      rfl

/-- Witness for C1: ingesting the concrete response `respW` twice over
an empty table inserts articles once and nothing the second time. -/
theorem fetch_feed_reingest_witness :
    respW.status = 200 ∧
    fetch_feed fetchW.feed fetchW.articles (.ok respW) 1 =
      ⟨apply_meta { fetchW.feed with lastFetchedAt := some 1 } respW,
        fetchW.articles, .ok ⟨feedW.feedId, 0, "ok"⟩⟩ :=
  ⟨rfl,
   ((fetch_feed_reingest feedW [] respW 0 1 rfl).2 fetchW.feed fetchW.articles
     fetchW.outcome rfl).2.2⟩

end AiInfo

